import Mathlib

/-!
Formal model of the android-swarm orchestration engine, translated from the
TypeScript sources: `src/constants.ts`, `src/validators.ts`,
`src/state-manager.ts`, `src/kimi-client.ts`, `src/agents/coder.ts` and the
orchestrator (`Orchestrator.executeStep`, `checkLimits`, `checkFeedbackLoop`,
`runExecutionPhase`).  Strings are modelled as lists of Unicode code points,
machine integers as `Nat`/`Int` (token counts and sizes are non-negative in
the source; timestamps are `Int` because JavaScript subtraction may go
negative), and fallible operations return an error component alongside the
unchanged or updated state.
-/

namespace AndroidSwarm

/-! ## Constants (src/constants.ts, LIMITS / RETRY_CONFIG) -/

def MAX_API_CALLS : Nat := 80

def MAX_TOTAL_TOKENS : Nat := 200000

def WALL_CLOCK_TIMEOUT_MS : Nat := 90 * 60 * 1000

def MAX_STEP_RETRIES : Nat := 3

def MAX_FILE_SIZE_BYTES : Nat := 50 * 1024

def CONSECUTIVE_FAILURE_LIMIT : Nat := 3

def API_ERROR_RATE_WINDOW_MS : Nat := 60 * 1000

def API_ERROR_RATE_LIMIT : Nat := 5

def RATE_LIMIT_DELAYS_MS : List Nat := [1000, 2000, 4000]

def SERVER_ERROR_DELAY_MS : Nat := 5000

def MAX_RATE_LIMIT_RETRIES : Nat := 3

/-! ## Path validation (src/validators.ts, validateFilePath)

A path is a list of characters; `String.prototype.split('/')` keeps empty
components, which `splitOnSlash` reproduces. -/

/-- Character class of the component regex in validateFilePath:
the regex is an anchored match of one or more of A-Z a-z 0-9 underscore
dot hyphen. -/
def isPathChar (c : Char) : Bool :=
  c.isAlpha || c.isDigit || c == '_' || c == '.' || c == '-'

/-- JavaScript path.includes of two consecutive dots. -/
def containsDotDot : List Char → Bool
  | c1 :: c2 :: rest => (c1 == '.' && c2 == '.') || containsDotDot (c2 :: rest)
  | _ => false

/-- JavaScript path.split of the slash character: empty components are kept,
and splitting the empty string yields one empty component. -/
def splitOnSlash : List Char → List (List Char)
  | [] => [[]]
  | c :: rest =>
    if c == '/' then [] :: splitOnSlash rest
    else
      match splitOnSlash rest with
      | [] => [[c]]
      | comp :: comps => (c :: comp) :: comps

/-- Body of the component loop in validateFilePath: empty components and the
single-dot component are skipped by the `continue`; otherwise the component
must match the character-class regex and must not begin with a dot. -/
def componentOk (comp : List Char) : Bool :=
  if comp == ([] : List Char) || comp == ['.'] then true
  else if !comp.all isPathChar then false
  else if comp.head? == some '.' && !(comp == ['.']) then false
  else true

/-- Translation of validateFilePath (src/validators.ts lines 192-219). -/
def validateFilePath (path : List Char) : Bool :=
  if path == ([] : List Char) then false
  else if 512 < path.length then false
  else if path.head? == some '/' then false
  else if containsDotDot path then false
  else if path.contains (Char.ofNat 0) || path.contains '\n' || path.contains '\r' then false
  else (splitOnSlash path).all componentOk

/-! ## UTF-16 and UTF-8 lengths

JavaScript `String.prototype.length` counts UTF-16 code units, while
`Buffer.byteLength(s, 'utf8')` counts UTF-8 bytes; the two disagree on any
code point above U+007F. -/

/-- UTF-16 code units taken by one code point. -/
def utf16CharLen (c : Char) : Nat :=
  if c.val < 0x10000 then 1 else 2

/-- UTF-8 bytes taken by one code point. -/
def utf8CharLen (c : Char) : Nat :=
  if c.val < 0x80 then 1
  else if c.val < 0x800 then 2
  else if c.val < 0x10000 then 3
  else 4

/-- JavaScript string length of a list of code points. -/
def utf16Len (s : List Char) : Nat := (s.map utf16CharLen).sum

/-- Buffer.byteLength of a list of code points in UTF-8. -/
def utf8Len (s : List Char) : Nat := (s.map utf8CharLen).sum

/-- Longest code-point whole-prefix that fits in the given number of UTF-16
code units (JavaScript substring counts code units; on contents it does not
truncate, which are the only contents the theorems below evaluate it on,
this is exact). -/
def utf16Take : Nat → List Char → List Char
  | _, [] => []
  | n, c :: rest =>
    if utf16CharLen c ≤ n then c :: utf16Take (n - utf16CharLen c) rest else []

/-- Size adjustment in CoderAgent.generateFile (src/agents/coder.ts lines
34-38): content longer than MAX_FILE_SIZE_BYTES in UTF-16 code units
(JavaScript .length) is truncated by substring to that many code units. -/
def generateFileAdjust (content : List Char) : List Char :=
  if MAX_FILE_SIZE_BYTES < utf16Len content then utf16Take MAX_FILE_SIZE_BYTES content
  else content

/-! ## State store: writeFile (src/state-manager.ts lines 201-259)

The workspace is an association list from path to content.  sanitizeFilePath
first runs validateFilePath and then checks that resolving the path against
the workspace root stays inside the root; a validated path is relative and
free of dot-dot segments, so the resolution of a validated path can never
leave the root and the containment check reduces to validateFilePath. -/

inductive WriteError
  | invalidPath
  | sizeExceeded
  deriving DecidableEq

def FileSystem : Type := List (List Char × List Char)

instance : DecidableEq FileSystem := by
  unfold FileSystem
  infer_instance

/-- Atomic replace of the destination file (temp write plus rename). -/
def upsertFile (fs : FileSystem) (p content : List Char) : FileSystem :=
  match fs with
  | [] => [(p, content)]
  | (q, c) :: rest =>
    if q == p then (p, content) :: rest else (q, c) :: upsertFile rest p content

/-- Translation of StateManager.writeFile: sanitize the path, reject content
whose UTF-8 byte length exceeds MAX_FILE_SIZE_BYTES before anything is
written, otherwise atomically replace the destination.  On either error the
filesystem is returned unchanged (the size check precedes the temp write,
and the temp file is unlinked on failure). -/
def writeFile (fs : FileSystem) (filePath content : List Char) :
    Option WriteError × FileSystem :=
  if !validateFilePath filePath then (some .invalidPath, fs)
  else if MAX_FILE_SIZE_BYTES < utf8Len content then (some .sizeExceeded, fs)
  else (none, upsertFile fs filePath content)

/-! ## State store: tasks table and updateTaskState -/

inductive TaskState
  | PLANNING
  | EXECUTING
  | VERIFYING
  | COMPLETED
  | COMPLETED_WITH_WARNINGS
  | FAILED
  deriving DecidableEq

structure TaskRow where
  state : TaskState
  api_call_count : Nat
  total_tokens : Nat
  start_time : Nat
  end_time : Option Nat
  error_message : Option String
  deriving DecidableEq

/-- Translation of StateManager.updateTaskState (lines 100-117): end_time is
added to the UPDATE set only for COMPLETED and FAILED; error_message only
when the argument is present and truthy (the empty string is falsy in
JavaScript). -/
def updateTaskState (row : TaskRow) (state : TaskState)
    (errorMessage : Option String) (now : Nat) : TaskRow :=
  { row with
    state := state
    end_time :=
      if state = .COMPLETED ∨ state = .FAILED then some now else row.end_time
    error_message :=
      match errorMessage with
      | some msg => if msg = "" then row.error_message else some msg
      | none => row.error_message }

/-! ## State store: api_calls table and the counter invariant -/

structure APICallRecord where
  task_id : String
  agent : String
  prompt_tokens : Nat
  completion_tokens : Nat
  timestamp : Nat
  deriving DecidableEq

structure DB where
  tasks : List (String × TaskRow)
  api_calls : List APICallRecord
  deriving DecidableEq

/-- SELECT of a task row by primary key. -/
def findTask : List (String × TaskRow) → String → Option TaskRow
  | [], _ => none
  | (k, v) :: rest, id => if k = id then some v else findTask rest id

/-- UPDATE of every row whose key matches (keys are unique in practice,
the PRIMARY KEY guards duplicates). -/
def updateAssoc : List (String × TaskRow) → String → (TaskRow → TaskRow) →
    List (String × TaskRow)
  | [], _, _ => []
  | (k, v) :: rest, id, f =>
    (if k = id then (k, f v) else (k, v)) :: updateAssoc rest id f

/-- Workspace state next to the database: which task directories exist. -/
structure StoreState where
  db : DB
  dirs : List String
  deriving DecidableEq

inductive CreateError
  | duplicateKey
  | mkdirFailed
  deriving DecidableEq

/-- Translation of StateManager.createTask (lines 88-98): the INSERT runs
first (failing only on a duplicate primary key, leaving everything
unchanged); only then is the workspace directory created, and a mkdir
failure surfaces with the row already inserted and not removed. -/
def createTask (st : StoreState) (taskId : String) (now : Nat)
    (mkdirFails : Bool) : Option CreateError × StoreState :=
  if (findTask st.db.tasks taskId).isSome then (some .duplicateKey, st)
  else
    let row : TaskRow :=
      { state := .PLANNING, api_call_count := 0, total_tokens := 0,
        start_time := now, end_time := none, error_message := none }
    let db' : DB := { st.db with tasks := st.db.tasks ++ [(taskId, row)] }
    if st.dirs.contains taskId then (none, { st with db := db' })
    else if mkdirFails then (some .mkdirFailed, { st with db := db' })
    else (none, { db := db', dirs := st.dirs ++ [taskId] })

/-- Translation of StateManager.recordAPICall (lines 151-170): insert the
APICallRecord and bump the parent task's counters in the same transaction. -/
def recordAPICall (db : DB) (taskId agent : String)
    (promptTokens completionTokens : Nat) (now : Nat) : DB :=
  { tasks :=
      updateAssoc db.tasks taskId fun row =>
        { row with
          api_call_count := row.api_call_count + 1
          total_tokens := row.total_tokens + (promptTokens + completionTokens) }
    api_calls :=
      db.api_calls ++
        [{ task_id := taskId, agent := agent, prompt_tokens := promptTokens,
           completion_tokens := completionTokens, timestamp := now }] }

/-- One state-store operation, as exposed by StateManager.  storePlan and
recordStep touch neither the counters nor the api_calls table and are kept
as explicit no-ops on the modelled fields. -/
inductive StoreOp
  | createTask (taskId : String) (now : Nat) (mkdirFails : Bool)
  | updateTaskState (taskId : String) (state : TaskState)
      (errorMessage : Option String) (now : Nat)
  | storePlan (taskId : String)
  | recordStep (taskId : String)
  | recordAPICall (taskId agent : String)
      (promptTokens completionTokens : Nat) (now : Nat)

def applyOp (st : StoreState) : StoreOp → StoreState
  | .createTask id now mkdirFails => (createTask st id now mkdirFails).2
  | .updateTaskState id state msg now =>
      { st with db :=
          { st.db with tasks :=
              updateAssoc st.db.tasks id fun row => updateTaskState row state msg now } }
  | .storePlan _ => st
  | .recordStep _ => st
  | .recordAPICall id agent p c now => { st with db := recordAPICall st.db id agent p c now }

def runOps (st : StoreState) : List StoreOp → StoreState
  | [] => st
  | op :: rest => runOps (applyOp st op) rest

/-- Number of APICallRecords of a task. -/
def callCount (db : DB) (id : String) : Nat :=
  (db.api_calls.filter fun r => r.task_id = id).length

/-- Sum of prompt plus completion tokens over a task's APICallRecords. -/
def tokenSum (db : DB) (id : String) : Nat :=
  ((db.api_calls.filter fun r => r.task_id = id).map
    fun r => r.prompt_tokens + r.completion_tokens).sum

/-- The spec's counter invariant for every task in the database. -/
def countersAccurate (db : DB) : Prop :=
  ∀ id row, findTask db.tasks id = some row →
    row.api_call_count = callCount db id ∧ row.total_tokens = tokenSum db id

/-- Traces the orchestrator can produce: an APICallRecord is only ever
inserted for a task that already exists (executeTask persists the task
before any agent phase runs). -/
def opsWellFormed : StoreState → List StoreOp → Prop
  | _, [] => True
  | st, op :: rest =>
    (match op with
     | .recordAPICall id _ _ _ _ => (findTask st.db.tasks id).isSome
     | _ => True) ∧ opsWellFormed (applyOp st op) rest

/-! ## LLM client (src/kimi-client.ts)

The outcome of one HTTP attempt is external input; timestamps are `Int`
because `now - 60000` may be negative in JavaScript. -/

/-- HTTP status classification (src/utils/llm-validation.ts
classifyHTTPError); only the transient flag matters to control flow. -/
def classifyHTTPError (statusCode : Nat) : Bool :=
  if statusCode = 429 then true
  else if 500 ≤ statusCode ∧ statusCode < 600 then true
  else if 400 ≤ statusCode ∧ statusCode < 500 then false
  else false

/-- What one attempted HTTP request does. -/
inductive ReqOutcome
  | success
  | httpError (status : Nat)
  | timeout
  | networkError
  deriving DecidableEq

/-- Which outcomes call recordAPIError inside makeRequest: a non-2xx
response with a non-transient classification or a status of at least 500
(lines 171-174), an AbortError (line 189), and a network error (line 198). -/
def recordsAPIError : ReqOutcome → Bool
  | .success => false
  | .httpError s => !classifyHTTPError s || decide (500 ≤ s)
  | .timeout => true
  | .networkError => true

/-- Recording rule the claim states: only errors that are non-transient or
HTTP 5xx enter the window; timeouts and network errors are not recorded. -/
def claimWindowRecords : ReqOutcome → Bool
  | .success => false
  | .httpError s => !classifyHTTPError s || decide (500 ≤ s ∧ s < 600)
  | .timeout => false
  | .networkError => false

structure ClientSt where
  apiErrorTimestamps : List Int
  deriving DecidableEq

/-- The filter in checkAPIErrorRate: keep timestamps strictly newer than
now minus the window. -/
def pruneWindow (w : List Int) (now : Int) : List Int :=
  w.filter fun ts => now - (API_ERROR_RATE_WINDOW_MS : Int) < ts

inductive ClientErr
  | circuitBreaker
  | apiError (status : Nat) (transient : Bool)
  | timeoutError
  deriving DecidableEq

/-- Translation of KimiClient.makeRequest (lines 126-201): prune the error
window and trip the breaker before the HTTP call; classify a non-2xx
response, recording it per `recordsAPIError`; record timeouts and network
errors; network errors become a transient APIError with status 0. -/
def makeRequest (st : ClientSt) (now : Int) (outcome : ReqOutcome) :
    Except ClientErr Unit × ClientSt :=
  let w := pruneWindow st.apiErrorTimestamps now
  if API_ERROR_RATE_LIMIT ≤ w.length then (.error .circuitBreaker, ⟨w⟩)
  else
    match outcome with
    | .success => (.ok (), ⟨w⟩)
    | .httpError s =>
      (.error (.apiError s (classifyHTTPError s)),
       ⟨if recordsAPIError (.httpError s) then w ++ [now] else w⟩)
    | .timeout => (.error .timeoutError, ⟨w ++ [now]⟩)
    | .networkError => (.error (.apiError 0 true), ⟨w ++ [now]⟩)

inductive RetryResult
  | success
  | raisedApi (status : Nat) (transient : Bool)
  | raisedTimeout
  | raisedBreaker
  | unexpectedExit
  deriving DecidableEq

structure RetryTrace where
  attempts : Nat
  sleeps : List Nat
  result : RetryResult
  finalSt : ClientSt
  deriving DecidableEq

/-- Jittered backoff delay (KimiClient.addJitter): plus or minus a quarter
of the base delay, clamped to at least 100 ms; rand is Math.random. -/
def addJitter (delayMs : ℚ) (rand : ℚ) : ℚ :=
  max 100 (delayMs + (rand * 2 - 1) * (1 / 4) * delayMs)

/-- Translation of KimiClient.makeRequestWithRetry (lines 52-124): at most
MAX_RATE_LIMIT_RETRIES attempts; non-transient errors re-raised at once; a
429 sleeps RATE_LIMIT_DELAYS_MS at its attempt index when attempts remain;
a 5xx or timeout retries only from the first attempt after
SERVER_ERROR_DELAY_MS; a breaker trip is not an APIError or TimeoutError
and is re-raised at once; `sleeps` records the base delays handed to
addJitter. -/
def retryAux (times : Nat → Int) (outs : Nat → ReqOutcome) :
    Nat → Nat → ClientSt → List Nat → Option ClientErr → RetryTrace
  | 0, attempt, st, sleeps, lastErr =>
    { attempts := attempt, sleeps := sleeps, finalSt := st,
      result :=
        match lastErr with
        | some (.apiError s t) => .raisedApi s t
        | some .timeoutError => .raisedTimeout
        | some .circuitBreaker => .raisedBreaker
        | none => .unexpectedExit }
  | fuel + 1, attempt, st, sleeps, _ =>
    match makeRequest st (times attempt) (outs attempt) with
    | (.ok _, st') =>
      { attempts := attempt + 1, sleeps := sleeps, result := .success, finalSt := st' }
    | (.error .circuitBreaker, st') =>
      { attempts := attempt + 1, sleeps := sleeps, result := .raisedBreaker, finalSt := st' }
    | (.error (.apiError s t), st') =>
      if !t then
        { attempts := attempt + 1, sleeps := sleeps, result := .raisedApi s t, finalSt := st' }
      else if s = 429 ∧ attempt < MAX_RATE_LIMIT_RETRIES - 1 then
        retryAux times outs fuel (attempt + 1) st'
          (sleeps ++ [RATE_LIMIT_DELAYS_MS.getD attempt 0]) (some (.apiError s t))
      else if 500 ≤ s ∧ s < 600 ∧ attempt = 0 then
        retryAux times outs fuel (attempt + 1) st'
          (sleeps ++ [SERVER_ERROR_DELAY_MS]) (some (.apiError s t))
      else
        { attempts := attempt + 1, sleeps := sleeps, result := .raisedApi s t, finalSt := st' }
    | (.error .timeoutError, st') =>
      if attempt = 0 then
        retryAux times outs fuel (attempt + 1) st'
          (sleeps ++ [SERVER_ERROR_DELAY_MS]) (some .timeoutError)
      else
        { attempts := attempt + 1, sleeps := sleeps, result := .raisedTimeout, finalSt := st' }

def makeRequestWithRetry (times : Nat → Int) (outs : Nat → ReqOutcome)
    (st : ClientSt) : RetryTrace :=
  retryAux times outs MAX_RATE_LIMIT_RETRIES 0 st [] none

/-! ## Orchestrator: the per-step retry loop (Orchestrator.executeStep)

Agent responses, the emergency-stop file, the abort flag and the wall clock
are external inputs supplied per attempt. -/

inductive LimitType
  | wall_clock_time
  | api_calls
  | tokens
  deriving DecidableEq

inductive OrchError
  | limitExceeded (limitType : LimitType)
  | emergencyStop
  | feedbackBreaker
  | aborted
  | transientBreaker
  | stepTransientExhausted (stepNumber : Nat)
  | coderFatal (stepNumber : Nat)
  | stepRejected (stepNumber : Nat)
  | writeFailed (e : WriteError)
  deriving DecidableEq

/-- Translation of Orchestrator.checkLimits (lines 1404-1420), reading the
persisted task counters: wall clock strictly over the timeout, then api
calls at the cap, then tokens at the cap. -/
def checkLimits (apiCallCount totalTokens elapsedMs : Nat) : Option LimitType :=
  if WALL_CLOCK_TIMEOUT_MS < elapsedMs then some .wall_clock_time
  else if MAX_API_CALLS ≤ apiCallCount then some .api_calls
  else if MAX_TOTAL_TOKENS ≤ totalTokens then some .tokens
  else none

structure OrchSt where
  apiCallCount : Nat
  totalTokens : Nat
  consecutiveFailures : Nat
  consecutiveCriticRejections : Nat
  completedFiles : List (List Char)
  fs : FileSystem
  deriving DecidableEq

inductive CoderOutcome
  | ok (content : List Char) (promptTokens completionTokens : Nat)
  | err (transient : Bool)
  deriving DecidableEq

structure CriticOutcome where
  accept : Bool
  promptTokens : Nat
  completionTokens : Nat
  deriving DecidableEq

structure AttemptEnv where
  elapsedMs : Nat
  emergencyStopPresent : Bool
  abortRequested : Bool
  coder : CoderOutcome
  critic : CriticOutcome
  deriving DecidableEq

/-- Observable agent invocations, each tagged with the persisted total_tokens
at the moment of the call. -/
inductive Ev
  | coderCall (tokensBefore : Nat)
  | criticCall (tokensBefore : Nat)
  | fileWrite
  deriving DecidableEq

inductive StepOutcome
  | accepted
  | raised (e : OrchError)
  | fellThrough
  deriving DecidableEq

/-- Translation of the body of Orchestrator.executeStep (lines 1248-1352).
`fuel` is MAX_STEP_RETRIES minus the number of attempts already made and
`attempt` the 1-based attempt counter before its increment; each iteration
increments the counter, runs checkLimits, the emergency-stop check, the
feedback-loop check and the abort check in the source's order, invokes the
Coder (recording its usage into the persisted counters), then the Critic
(likewise), and on ACCEPT writes the file; a REJECT bumps the rejection
counter and either loops or, on the last attempt, raises the
step-rejected error. -/
def execAttempts (stepNumber : Nat) (filePath : List Char)
    (envs : Nat → AttemptEnv) :
    Nat → Nat → OrchSt → List Ev → StepOutcome × OrchSt × List Ev
  | 0, _, st, tr => (.fellThrough, st, tr)
  | fuel + 1, attempt, st, tr =>
    let a := attempt + 1
    let env := envs a
    match checkLimits st.apiCallCount st.totalTokens env.elapsedMs with
    | some lt => (.raised (.limitExceeded lt), st, tr)
    | none =>
      if env.emergencyStopPresent then (.raised .emergencyStop, st, tr)
      else if 2 * CONSECUTIVE_FAILURE_LIMIT ≤ st.consecutiveCriticRejections then
        (.raised .feedbackBreaker, st, tr)
      else if env.abortRequested then (.raised .aborted, st, tr)
      else
        match env.coder with
        | .err transientFlag =>
          if transientFlag then
            let st' := { st with consecutiveFailures := st.consecutiveFailures + 1 }
            if CONSECUTIVE_FAILURE_LIMIT ≤ st'.consecutiveFailures then
              (.raised .transientBreaker, st', tr)
            else if MAX_STEP_RETRIES ≤ a then
              (.raised (.stepTransientExhausted stepNumber), st', tr)
            else execAttempts stepNumber filePath envs fuel a st' tr
          else (.raised (.coderFatal stepNumber), st, tr)
        | .ok content p c =>
          let tr1 := tr ++ [.coderCall st.totalTokens]
          let st1 : OrchSt :=
            { st with
              apiCallCount := st.apiCallCount + 1
              totalTokens := st.totalTokens + (p + c) }
          let cr := env.critic
          let tr2 := tr1 ++ [.criticCall st1.totalTokens]
          let st2 : OrchSt :=
            { st1 with
              apiCallCount := st1.apiCallCount + 1
              totalTokens := st1.totalTokens + (cr.promptTokens + cr.completionTokens) }
          if cr.accept then
            match writeFile st2.fs filePath content with
            | (some e, fs') => (.raised (.writeFailed e), { st2 with fs := fs' }, tr2)
            | (none, fs') =>
              (.accepted,
               { st2 with fs := fs', completedFiles := st2.completedFiles ++ [filePath] },
               tr2 ++ [.fileWrite])
          else
            let st3 : OrchSt :=
              { st2 with consecutiveCriticRejections := st2.consecutiveCriticRejections + 1 }
            if MAX_STEP_RETRIES ≤ a then (.raised (.stepRejected stepNumber), st3, tr2)
            else execAttempts stepNumber filePath envs fuel a st3 tr2

def executeStep (stepNumber : Nat) (filePath : List Char)
    (envs : Nat → AttemptEnv) (st : OrchSt) : StepOutcome × OrchSt × List Ev :=
  execAttempts stepNumber filePath envs MAX_STEP_RETRIES 0 st []

/-- One step of the plan: its step_number, its file_path and the per-attempt
external inputs. -/
structure StepScript where
  stepNumber : Nat
  filePath : List Char
  envs : Nat → AttemptEnv

/-- Translation of the loop of Orchestrator.runExecutionPhase (lines
1194-1225): execute each step in order; a raised error aborts the phase;
after a step returns normally both consecutive counters reset to zero. -/
def runPlan : List StepScript → OrchSt → Option OrchError × OrchSt
  | [], st => (none, st)
  | s :: rest, st =>
    match executeStep s.stepNumber s.filePath s.envs st with
    | (.raised e, st', _) => (some e, st')
    | (_, st', _) =>
      runPlan rest
        { st' with consecutiveFailures := 0, consecutiveCriticRejections := 0 }

/-! ## Theorems -/

/-- Componentwise reading of the loop body of validateFilePath. -/
theorem componentOk_iff (comp : List Char) :
    componentOk comp = true ↔
      comp = [] ∨ comp = ['.'] ∨
        (comp.all isPathChar = true ∧ comp.head? ≠ some '.') := by
  simp only [componentOk]
  split_ifs with h1 h2 h3 <;>
    simp_all [Bool.or_eq_true, beq_iff_eq, Bool.and_eq_true, Bool.not_eq_true'] <;>
    tauto

/-- Declarative reading of validateFilePath. -/
theorem validateFilePath_iff (p : List Char) :
    validateFilePath p = true ↔
      (p ≠ [] ∧ p.length ≤ 512 ∧ p.head? ≠ some '/' ∧
       containsDotDot p = false ∧
       Char.ofNat 0 ∉ p ∧ '\n' ∉ p ∧ '\r' ∉ p ∧
       ∀ comp ∈ splitOnSlash p, comp = [] ∨ comp = ['.'] ∨
         (comp.all isPathChar = true ∧ comp.head? ≠ some '.')) := by
  simp only [validateFilePath]
  split_ifs with h1 h2 h3 h4 h5
  · simp_all [beq_iff_eq]
  · simp_all [beq_iff_eq]
  · simp_all [beq_iff_eq]
  · simp_all [beq_iff_eq]
  · simp_all [beq_iff_eq, Bool.or_eq_true, List.elem_iff]
    tauto
  · simp_all [beq_iff_eq, Bool.or_eq_true, List.elem_iff, List.all_eq_true,
      componentOk_iff]

/-- Claim C3, counterexample: the component loop of validateFilePath skips
empty components, so the double-slash path a//b is accepted although the
claim requires it to be rejected. -/
theorem validateFilePath_accepts_double_slash :
    validateFilePath ['a', '/', '/', 'b'] = true := by decide

/-- Claim C3, amended: validateFilePath rejects the empty path, paths over
512 characters, absolute paths, paths containing two consecutive dots or a
NUL, CR or LF, and any component other than an empty or single-dot
component (which the loop skips) that fails the character-class or begins
with a dot; ../x, /abs and .hidden are rejected but a//b is accepted. -/
theorem validateFilePath_characterization :
    (∀ p, validateFilePath p = true ↔
      (p ≠ [] ∧ p.length ≤ 512 ∧ p.head? ≠ some '/' ∧
       containsDotDot p = false ∧
       Char.ofNat 0 ∉ p ∧ '\n' ∉ p ∧ '\r' ∉ p ∧
       ∀ comp ∈ splitOnSlash p, comp = [] ∨ comp = ['.'] ∨
         (comp.all isPathChar = true ∧ comp.head? ≠ some '.'))) ∧
    validateFilePath ['.', '.', '/', 'x'] = false ∧
    validateFilePath ['/', 'a', 'b', 's'] = false ∧
    validateFilePath ['.', 'h', 'i', 'd', 'd', 'e', 'n'] = false ∧
    validateFilePath ['a', '/', '/', 'b'] = true :=
  ⟨validateFilePath_iff, by decide, by decide, by decide, by decide⟩

/-- Claim C9: updateTaskState writes end_time exactly for COMPLETED and
FAILED, leaves it unchanged for COMPLETED_WITH_WARNINGS, and leaves
error_message unchanged when no message is supplied. -/
theorem updateTaskState_frame :
    ∀ (row : TaskRow) (st : TaskState) (msg : Option String) (now : Nat),
      ((st = .COMPLETED ∨ st = .FAILED) →
        (updateTaskState row st msg now).end_time = some now) ∧
      (st ≠ .COMPLETED → st ≠ .FAILED →
        (updateTaskState row st msg now).end_time = row.end_time) ∧
      (updateTaskState row .COMPLETED_WITH_WARNINGS msg now).end_time
        = row.end_time ∧
      (msg = none →
        (updateTaskState row st msg now).error_message = row.error_message) ∧
      (updateTaskState row st msg now).state = st := by
  intro row st msg now
  refine ⟨fun h => ?_, fun h1 h2 => ?_, ?_, fun h => ?_, ?_⟩ <;>
    simp_all [updateTaskState]

/-- Claim C4: createTask inserts the tasks row before creating the
workspace directory and does not remove it when mkdir fails, so on the
directory-failure path the row is still visible. -/
theorem createTask_row_visible_after_mkdir_failure :
    (createTask ⟨⟨[], []⟩, []⟩ "t1" 0 true).1 = some .mkdirFailed ∧
    findTask (createTask ⟨⟨[], []⟩, []⟩ "t1" 0 true).2.db.tasks "t1" ≠ none := by
  constructor <;> decide

/-- Claim C6, counterexample: a timeout is transient and has no 5xx status,
so by the claim it is not recorded in the error window; makeRequest records
its timestamp. -/
theorem errorWindow_records_timeout :
    claimWindowRecords .timeout = false ∧
    (makeRequest ⟨[]⟩ 0 .timeout).2.apiErrorTimestamps = [(0 : Int)] := by
  constructor <;> decide

theorem utf8Len_replicate (n : Nat) (c : Char) :
    utf8Len (List.replicate n c) = n * utf8CharLen c := by
  induction n with
  | zero => simp [utf8Len]
  | succ k ih =>
    simp only [utf8Len, List.replicate_succ, List.map_cons, List.sum_cons] at ih ⊢
    rw [ih, Nat.succ_mul]
    omega

theorem utf16Len_replicate (n : Nat) (c : Char) :
    utf16Len (List.replicate n c) = n * utf16CharLen c := by
  induction n with
  | zero => simp [utf16Len]
  | succ k ih =>
    simp only [utf16Len, List.replicate_succ, List.map_cons, List.sum_cons] at ih ⊢
    rw [ih, Nat.succ_mul]
    omega

/-- Claim C8: for a path that validates, writeFile succeeds exactly when the
UTF-8 byte length of the content is within MAX_FILE_SIZE_BYTES, and on the
size error nothing is written. -/
theorem writeFile_size_limit :
    ∀ (fs : FileSystem) (path content : List Char),
      validateFilePath path = true →
      (utf8Len content ≤ MAX_FILE_SIZE_BYTES →
        writeFile fs path content = (none, upsertFile fs path content)) ∧
      (MAX_FILE_SIZE_BYTES < utf8Len content →
        writeFile fs path content = (some .sizeExceeded, fs)) := by
  intro fs path content hv
  constructor
  · intro h
    simp [writeFile, hv, Nat.not_lt.mpr h]
  · intro h
    simp [writeFile, hv, h]

/-- Claim C8, witness: content of exactly 50 KiB is accepted and written,
content of 50 KiB plus one byte is rejected with the filesystem unchanged. -/
theorem writeFile_size_limit_witness :
    writeFile [] ['a'] (List.replicate 51200 'a')
      = (none, upsertFile [] ['a'] (List.replicate 51200 'a')) ∧
    writeFile [] ['a'] (List.replicate 51201 'a') = (some .sizeExceeded, []) := by
  have hc : utf8CharLen 'a' = 1 := by decide
  refine ⟨(writeFile_size_limit [] ['a'] _ (by decide)).1 ?_,
          (writeFile_size_limit [] ['a'] _ (by decide)).2 ?_⟩ <;>
    rw [utf8Len_replicate, hc] <;> norm_num [MAX_FILE_SIZE_BYTES]

/-- Claim C10: a Coder output of 51200 copies of U+00E9 passes the
truncation check untouched (its JavaScript length, in UTF-16 code units, is
exactly MAX_FILE_SIZE_BYTES) while its UTF-8 byte length is 102400, so the
subsequent writeFile raises the size ValidationError. -/
theorem coder_codeunit_vs_byte_limit :
    generateFileAdjust (List.replicate 51200 'é') = List.replicate 51200 'é' ∧
    utf16Len (List.replicate 51200 'é') ≤ MAX_FILE_SIZE_BYTES ∧
    MAX_FILE_SIZE_BYTES < utf8Len (List.replicate 51200 'é') ∧
    writeFile [] ['a'] (List.replicate 51200 'é') = (some .sizeExceeded, []) := by
  have h16 : utf16Len (List.replicate 51200 'é') = 51200 := by
    rw [utf16Len_replicate, show utf16CharLen 'é' = 1 from by decide]
  have h8 : utf8Len (List.replicate 51200 'é') = 102400 := by
    rw [utf8Len_replicate, show utf8CharLen 'é' = 2 from by decide]
  have hlt : MAX_FILE_SIZE_BYTES < utf8Len (List.replicate 51200 'é') := by
    rw [h8]; norm_num [MAX_FILE_SIZE_BYTES]
  refine ⟨?_, ?_, hlt, ?_⟩
  · have hle : ¬ MAX_FILE_SIZE_BYTES < utf16Len (List.replicate 51200 'é') := by
      rw [h16]; norm_num [MAX_FILE_SIZE_BYTES]
    unfold generateFileAdjust
    rw [if_neg hle]
  · rw [h16]; norm_num [MAX_FILE_SIZE_BYTES]
  · have hv : validateFilePath ['a'] = true := by decide
    unfold writeFile
    rw [if_neg (by simp [hv]), if_pos hlt]

/-- Claim C6, amended: the breaker window is pruned to entries strictly
newer than sixty seconds before each attempt; the CircuitBreakerError is
raised exactly when at least five entries remain; and a timestamp is
recorded for every non-transient error, every status of 500 and above,
every timeout, and every network error (not only the non-transient-or-5xx
errors of the claim). -/
theorem errorWindow_behaviour :
    ∀ (st : ClientSt) (now : Int) (o : ReqOutcome),
      (∀ ts ∈ pruneWindow st.apiErrorTimestamps now,
        now - (API_ERROR_RATE_WINDOW_MS : Int) < ts ∧ ts ∈ st.apiErrorTimestamps) ∧
      ((makeRequest st now o).1 = .error .circuitBreaker ↔
        API_ERROR_RATE_LIMIT ≤ (pruneWindow st.apiErrorTimestamps now).length) ∧
      ((pruneWindow st.apiErrorTimestamps now).length < API_ERROR_RATE_LIMIT →
        (makeRequest st now o).2.apiErrorTimestamps =
          pruneWindow st.apiErrorTimestamps now ++
            (if recordsAPIError o then [now] else [])) ∧
      recordsAPIError .timeout = true ∧
      recordsAPIError .networkError = true ∧
      (∀ s, recordsAPIError (.httpError s) = true ↔
        (classifyHTTPError s = false ∨ 500 ≤ s)) := by
  intro st now o
  refine ⟨?_, ?_, ?_, rfl, rfl, ?_⟩
  · intro ts hts
    simp only [pruneWindow, List.mem_filter, decide_eq_true_eq] at hts
    exact ⟨hts.2, hts.1⟩
  · simp only [makeRequest]
    split_ifs with h
    · simp [h]
    · cases o <;> simp [h]
  · intro h
    have hn : ¬ API_ERROR_RATE_LIMIT ≤ (pruneWindow st.apiErrorTimestamps now).length :=
      Nat.not_le.mpr h
    cases o <;> simp [makeRequest, hn, recordsAPIError] <;> split_ifs <;> simp
  · intro s
    simp [recordsAPIError, Bool.or_eq_true, Bool.not_eq_true', decide_eq_true_eq]

theorem retryAux_attempts_le (times : Nat → Int) (outs : Nat → ReqOutcome) :
    ∀ (fuel attempt : Nat) (st : ClientSt) (sleeps : List Nat)
      (lastErr : Option ClientErr),
      (retryAux times outs fuel attempt st sleeps lastErr).attempts ≤ attempt + fuel := by
  intro fuel
  induction fuel with
  | zero => intro attempt st sleeps lastErr; simp [retryAux]
  | succ k ih =>
    intro attempt st sleeps lastErr
    simp only [retryAux]
    split
    · simp
    · simp
    · split_ifs
      · simp
      · exact le_trans (ih _ _ _ _) (by omega)
      · exact le_trans (ih _ _ _ _) (by omega)
      · simp
    · split_ifs
      · exact le_trans (ih _ _ _ _) (by omega)
      · simp

/-- Claim C7: the retry loop makes at most three attempts; a non-transient
HTTP error raises on the first attempt with no sleep; three consecutive
429s sleep the first two RATE_LIMIT_DELAYS_MS base delays and then raise
the last error after the third attempt; a timeout and a 5xx retry exactly
once after the SERVER_ERROR_DELAY_MS base delay and raise the last error
on the second failure; and every jittered delay is clamped to at least
100 ms. -/
theorem retry_algorithm :
    (∀ (times : Nat → Int) (outs : Nat → ReqOutcome) (st : ClientSt),
      (makeRequestWithRetry times outs st).attempts ≤ MAX_RATE_LIMIT_RETRIES) ∧
    (∀ (times : Nat → Int) (outs : Nat → ReqOutcome) (st : ClientSt) (s : Nat),
      outs 0 = .httpError s → classifyHTTPError s = false →
      (pruneWindow st.apiErrorTimestamps (times 0)).length < API_ERROR_RATE_LIMIT →
      makeRequestWithRetry times outs st =
        { attempts := 1, sleeps := [], result := .raisedApi s false,
          finalSt := ⟨pruneWindow st.apiErrorTimestamps (times 0) ++ [times 0]⟩ }) ∧
    (makeRequestWithRetry (fun _ => 0) (fun _ => .httpError 429) ⟨[]⟩ =
      { attempts := 3, sleeps := [1000, 2000], result := .raisedApi 429 true,
        finalSt := ⟨[]⟩ }) ∧
    (makeRequestWithRetry (fun i => (i : Int)) (fun _ => .timeout) ⟨[]⟩ =
      { attempts := 2, sleeps := [5000], result := .raisedTimeout,
        finalSt := ⟨[0, 1]⟩ }) ∧
    (makeRequestWithRetry (fun i => (i : Int)) (fun _ => .httpError 503) ⟨[]⟩ =
      { attempts := 2, sleeps := [5000], result := .raisedApi 503 true,
        finalSt := ⟨[0, 1]⟩ }) ∧
    (∀ (d r : ℚ), 100 ≤ addJitter d r) := by
  refine ⟨?_, ?_, by decide, by decide, by decide, fun d r => le_max_left _ _⟩
  · intro times outs st
    exact retryAux_attempts_le times outs MAX_RATE_LIMIT_RETRIES 0 st [] none
  · intro times outs st s h0 hcl hlen
    have hm : makeRequest st (times 0) (outs 0) =
        (.error (.apiError s false),
         ⟨pruneWindow st.apiErrorTimestamps (times 0) ++ [times 0]⟩) := by
      rw [h0]
      simp [makeRequest, Nat.not_le.mpr hlen, recordsAPIError, hcl]
    show retryAux times outs (2 + 1) 0 st [] none = _
    simp only [retryAux, hm]
    simp

/-- Claim C7, witness: the general conjuncts applied at a concrete script,
a single non-transient 404 on the first attempt. -/
theorem retry_algorithm_witness :
    (makeRequestWithRetry (fun _ => 0) (fun _ => .httpError 404) ⟨[]⟩).attempts
        ≤ MAX_RATE_LIMIT_RETRIES ∧
    makeRequestWithRetry (fun _ => 0) (fun _ => .httpError 404) ⟨[]⟩ =
      { attempts := 1, sleeps := [], result := .raisedApi 404 false,
        finalSt := ⟨[(0 : Int)]⟩ } := by
  constructor
  · exact retry_algorithm.1 _ _ _
  · have h := retry_algorithm.2.1 (fun _ => 0) (fun _ => .httpError 404) ⟨[]⟩ 404
      rfl (by decide) (by decide)
    simpa using h

theorem execAttempts_trace_extends (n : Nat) (path : List Char)
    (envs : Nat → AttemptEnv) :
    ∀ (fuel attempt : Nat) (st : OrchSt) (tr : List Ev),
      ∃ ext, (execAttempts n path envs fuel attempt st tr).2.2 = tr ++ ext := by
  intro fuel
  induction fuel with
  | zero =>
    intro attempt st tr
    exact ⟨[], by simp [execAttempts]⟩
  | succ k ih =>
    intro attempt st tr
    simp only [execAttempts]
    repeat' split
    all_goals first
      | exact ⟨[], (List.append_nil _).symm⟩
      | exact ih _ _ _
      | exact ⟨_, List.append_assoc _ _ _⟩
      | exact ⟨_, (List.append_assoc _ _ _).trans (List.append_assoc _ _ _)⟩
      | (obtain ⟨ext, hext⟩ := ih _ _ _
         exact ⟨_, hext.trans
           ((List.append_assoc _ _ _).trans (List.append_assoc _ _ _))⟩)

theorem execAttempts_no_feedback (n : Nat) (path : List Char)
    (envs : Nat → AttemptEnv) :
    ∀ (fuel attempt : Nat) (st : OrchSt) (tr : List Ev),
      st.consecutiveCriticRejections + fuel ≤ 2 * CONSECUTIVE_FAILURE_LIMIT - 1 →
      (execAttempts n path envs fuel attempt st tr).1 ≠ .raised .feedbackBreaker := by
  intro fuel
  induction fuel with
  | zero => intro attempt st tr h; simp [execAttempts]
  | succ k ih =>
    intro attempt st tr h
    simp only [execAttempts]
    repeat' split
    all_goals first
      | (apply ih
         try dsimp only
         simp only [CONSECUTIVE_FAILURE_LIMIT] at h ⊢
         omega)
      | (exfalso; simp only [CONSECUTIVE_FAILURE_LIMIT] at *; omega)
      | simp

theorem executeStep_no_feedback (n : Nat) (path : List Char)
    (envs : Nat → AttemptEnv) (st : OrchSt)
    (h : st.consecutiveCriticRejections ≤ 2) :
    (executeStep n path envs st).1 ≠ .raised .feedbackBreaker :=
  execAttempts_no_feedback n path envs MAX_STEP_RETRIES 0 st []
    (by simp only [MAX_STEP_RETRIES, CONSECUTIVE_FAILURE_LIMIT]; omega)

theorem runPlan_no_feedback :
    ∀ (steps : List StepScript) (st : OrchSt),
      st.consecutiveCriticRejections = 0 →
      (runPlan steps st).1 ≠ some .feedbackBreaker := by
  intro steps
  induction steps with
  | nil => intro st h; simp [runPlan]
  | cons s rest ih =>
    intro st h
    simp only [runPlan]
    split
    · rename_i e st' tr heq
      simp only [ne_eq, Option.some.injEq]
      intro hce
      subst hce
      have hnf := executeStep_no_feedback s.stepNumber s.filePath s.envs st (by omega)
      rw [heq] at hnf
      exact hnf rfl
    · exact ih _ (by simp)

/-- Claim C2: within a run the Critic cannot reject six consecutive
attempts: after three rejections the step raises the step-rejected error
and any normally completed step resets the rejection counter, so the
feedback-loop breaker with its threshold of six can never fire; in a run
whose Critic rejects every attempt the error raised is the step-retry
exhaustion error of the first step, not the CircuitBreakerError the claim
requires. -/
theorem feedback_breaker_unreachable :
    (∀ (steps : List StepScript) (st : OrchSt),
      st.consecutiveCriticRejections = 0 →
      (runPlan steps st).1 ≠ some .feedbackBreaker) ∧
    (runPlan
      [⟨1, ['a'], fun _ => ⟨0, false, false, .ok ['x'] 10 10, ⟨false, 5, 5⟩⟩⟩,
       ⟨2, ['b'], fun _ => ⟨0, false, false, .ok ['x'] 10 10, ⟨false, 5, 5⟩⟩⟩]
      ⟨0, 0, 0, 0, [], []⟩).1 = some (.stepRejected 1) :=
  ⟨runPlan_no_feedback, by decide⟩

/-- Claim C1, counterexample: from persisted totals of 199999 tokens, a
Coder usage of 2000 pushes total_tokens to 201999, at or above the
200000 cap, yet the Critic of the same attempt is still invoked (at
persisted total 201999) and the step is accepted; no LimitExceededError is
raised before that Critic call. -/
theorem critic_invoked_after_token_budget_crossed :
    (executeStep 5 ['a']
        (fun _ => ⟨0, false, false, .ok ['a'] 1000 1000, ⟨true, 10, 10⟩⟩)
        ⟨10, 199999, 0, 0, [], []⟩).1 = .accepted ∧
    Ev.criticCall 201999 ∈
      (executeStep 5 ['a']
        (fun _ => ⟨0, false, false, .ok ['a'] 1000 1000, ⟨true, 10, 10⟩⟩)
        ⟨10, 199999, 0, 0, [], []⟩).2.2 ∧
    MAX_TOTAL_TOKENS ≤ 201999 := by
  refine ⟨by decide, by decide, by decide⟩

/-- Claim C1, amended: the budgets are verified from the persisted Task
counters once per attempt, before the Coder invocation: an attempt that
starts with total_tokens at or above the cap raises LimitExceededError
with limit_type tokens before any agent call, but a Coder usage that
crosses the cap mid-attempt does not prevent the Critic of that same
attempt, which is invoked with the crossed persisted total. -/
theorem budget_check_at_attempt_start :
    (∀ (envs : Nat → AttemptEnv) (n : Nat) (path : List Char) (st : OrchSt),
      MAX_TOTAL_TOKENS ≤ st.totalTokens →
      (envs 1).elapsedMs ≤ WALL_CLOCK_TIMEOUT_MS →
      st.apiCallCount < MAX_API_CALLS →
      executeStep n path envs st = (.raised (.limitExceeded .tokens), st, [])) ∧
    (∀ (envs : Nat → AttemptEnv) (n : Nat) (path : List Char) (st : OrchSt)
       (content : List Char) (p c : Nat),
      checkLimits st.apiCallCount st.totalTokens (envs 1).elapsedMs = none →
      (envs 1).emergencyStopPresent = false →
      st.consecutiveCriticRejections < 2 * CONSECUTIVE_FAILURE_LIMIT →
      (envs 1).abortRequested = false →
      (envs 1).coder = .ok content p c →
      Ev.criticCall (st.totalTokens + (p + c)) ∈ (executeStep n path envs st).2.2) := by
  constructor
  · intro envs n path st h1 h2 h3
    have hcl : checkLimits st.apiCallCount st.totalTokens (envs 1).elapsedMs
        = some .tokens := by
      simp only [checkLimits]
      rw [if_neg (by omega), if_neg (by omega), if_pos h1]
    show execAttempts n path envs (2 + 1) 0 st [] = _
    rw [execAttempts]
    simp only [Nat.zero_add]
    rw [hcl]
  · intro envs n path st content p c h1 h2 h3 h4 h5
    show Ev.criticCall (st.totalTokens + (p + c)) ∈
      (execAttempts n path envs (2 + 1) 0 st []).2.2
    rw [execAttempts]
    simp only [Nat.zero_add]
    rw [h1]
    simp only [h2, Bool.false_eq_true, if_false, h5]
    rw [if_neg (Nat.not_le.mpr h3), if_neg (by simp [h4])]
    split_ifs with hacc hex
    · split
      · simp
      · simp
    · simp
    · obtain ⟨ext, hext⟩ := execAttempts_trace_extends n path envs 2 1 _ _
      rw [hext]
      simp

/-- Claim C1, witness for the amended theorem: both conjuncts applied at a
concrete state already over the token cap and at the concrete
counterexample script. -/
theorem budget_check_at_attempt_start_witness :
    executeStep 7 ['b'] (fun _ => ⟨0, false, false, .ok ['b'] 1 1, ⟨true, 1, 1⟩⟩)
        ⟨0, 200000, 0, 0, [], []⟩
      = (.raised (.limitExceeded .tokens), ⟨0, 200000, 0, 0, [], []⟩, []) ∧
    Ev.criticCall 201999 ∈
      (executeStep 5 ['a']
        (fun _ => ⟨0, false, false, .ok ['a'] 1000 1000, ⟨true, 10, 10⟩⟩)
        ⟨10, 199999, 0, 0, [], []⟩).2.2 :=
  ⟨budget_check_at_attempt_start.1 _ 7 ['b'] _ (by decide) (by decide) (by decide),
   budget_check_at_attempt_start.2 _ 5 ['a'] _ ['a'] 1000 1000
     (by decide) rfl (by decide) rfl rfl⟩

/-! ## The counter invariant (claim C5) -/

/-- Records never reference a task that is absent from the tasks table; the
orchestrator only records calls for the task it created. -/
def recordsHaveTasks (db : DB) : Prop :=
  ∀ r ∈ db.api_calls, (findTask db.tasks r.task_id).isSome

def dbConsistent (db : DB) : Prop := countersAccurate db ∧ recordsHaveTasks db

def emptyStore : StoreState := { db := { tasks := [], api_calls := [] }, dirs := [] }

theorem findTask_append (l1 l2 : List (String × TaskRow)) (id : String) :
    findTask (l1 ++ l2) id =
      match findTask l1 id with
      | some v => some v
      | none => findTask l2 id := by
  induction l1 with
  | nil => simp [findTask]
  | cons e rest ih =>
    obtain ⟨k, v⟩ := e
    by_cases h : k = id <;> simp [findTask, h, ih]

theorem findTask_updateAssoc (l : List (String × TaskRow)) (id id' : String)
    (f : TaskRow → TaskRow) :
    findTask (updateAssoc l id f) id' =
      if id' = id then (findTask l id').map f else findTask l id' := by
  induction l with
  | nil => simp [findTask, updateAssoc]
  | cons e rest ih =>
    obtain ⟨k, v⟩ := e
    simp only [updateAssoc]
    split_ifs with h1 <;>
      simp only [findTask] <;>
      split_ifs <;>
      simp_all

theorem no_records_of_absent (db : DB) (id : String)
    (hW : recordsHaveTasks db) (h : findTask db.tasks id = none) :
    db.api_calls.filter (fun r => r.task_id = id) = [] := by
  rw [List.filter_eq_nil]
  intro r hr hc
  have hs := hW r hr
  rw [decide_eq_true_eq] at hc
  rw [hc, h] at hs
  simp at hs

theorem callCount_recordAPICall (db : DB) (id id' agent : String)
    (p c now : Nat) :
    callCount (recordAPICall db id agent p c now) id' =
      callCount db id' + (if id = id' then 1 else 0) := by
  simp only [callCount, recordAPICall, List.filter_append, List.length_append]
  split_ifs with h <;> simp [h]

theorem tokenSum_recordAPICall (db : DB) (id id' agent : String)
    (p c now : Nat) :
    tokenSum (recordAPICall db id agent p c now) id' =
      tokenSum db id' + (if id = id' then p + c else 0) := by
  simp only [tokenSum, recordAPICall, List.filter_append, List.map_append,
    List.sum_append]
  split_ifs with h <;> simp [h]

theorem dbConsistent_insertTask (db : DB) (id : String) (now : Nat)
    (h : dbConsistent db) :
    dbConsistent
      { tasks := db.tasks ++
          [(id, { state := .PLANNING, api_call_count := 0, total_tokens := 0,
                  start_time := now, end_time := none, error_message := none })],
        api_calls := db.api_calls } := by
  obtain ⟨hA, hR⟩ := h
  constructor
  · intro id' row h'
    rw [findTask_append] at h'
    cases hf : findTask db.tasks id' with
    | some v =>
      rw [hf] at h'
      obtain rfl := Option.some.inj h'
      exact hA id' _ hf
    | none =>
      rw [hf] at h'
      simp only [findTask] at h'
      split_ifs at h' with hid
      · obtain rfl := Option.some.inj h'
        subst hid
        have hz := no_records_of_absent db id hR hf
        constructor
        · simp [callCount, hz]
        · simp [tokenSum, hz]
  · intro r hr
    have hs := hR r hr
    cases hf : findTask db.tasks r.task_id with
    | some v =>
      rw [show ({ tasks := db.tasks ++ _, api_calls := db.api_calls } : DB).tasks
        = db.tasks ++ _ from rfl, findTask_append, hf]
      simp
    | none => rw [hf] at hs; simp at hs

theorem dbConsistent_applyOp (st : StoreState) (op : StoreOp)
    (h : dbConsistent st.db)
    (hw : match op with
      | .recordAPICall id _ _ _ _ => (findTask st.db.tasks id).isSome
      | _ => True) :
    dbConsistent (applyOp st op).db := by
  obtain ⟨hA, hR⟩ := h
  cases op with
  | storePlan id => exact ⟨hA, hR⟩
  | recordStep id => exact ⟨hA, hR⟩
  | createTask id now mkdirFails =>
    simp only [applyOp, createTask]
    split_ifs with hdup hdir hfail
    · exact ⟨hA, hR⟩
    · exact dbConsistent_insertTask st.db id now ⟨hA, hR⟩
    · exact dbConsistent_insertTask st.db id now ⟨hA, hR⟩
    · exact dbConsistent_insertTask st.db id now ⟨hA, hR⟩
  | updateTaskState id state msg now =>
    refine ⟨?_, ?_⟩
    · intro id' row h'
      simp only [applyOp] at h' ⊢
      rw [findTask_updateAssoc] at h'
      split_ifs at h' with hid
      · cases hf : findTask st.db.tasks id' with
        | some v =>
          rw [hf] at h'
          simp only [Option.map_some'] at h'
          obtain rfl := Option.some.inj h'
          have hv := hA id' v hf
          exact ⟨by simpa [updateTaskState, callCount] using hv.1,
                 by simpa [updateTaskState, tokenSum] using hv.2⟩
        | none => rw [hf] at h'; simp at h'
      · exact hA id' row h'
    · intro r hr
      simp only [applyOp] at hr ⊢
      rw [findTask_updateAssoc]
      have hs := hR r hr
      split_ifs with hid
      · cases hf : findTask st.db.tasks r.task_id with
        | some v => simp
        | none => rw [hf] at hs; simp at hs
      · exact hs
  | recordAPICall id agent p c now =>
    have hw' : (findTask st.db.tasks id).isSome = true := hw
    refine ⟨?_, ?_⟩
    · intro id' row h'
      simp only [applyOp, recordAPICall] at h'
      rw [findTask_updateAssoc] at h'
      split_ifs at h' with hid
      · cases hf : findTask st.db.tasks id' with
        | some v =>
          rw [hf] at h'
          simp only [Option.map_some'] at h'
          obtain rfl := Option.some.inj h'
          have hv := hA id' v hf
          subst hid
          constructor
          · show _ = callCount (applyOp st (.recordAPICall id' agent p c now)).db id'
            simp only [applyOp]
            rw [callCount_recordAPICall, if_pos rfl]
            simp [hv.1]
          · show _ = tokenSum (applyOp st (.recordAPICall id' agent p c now)).db id'
            simp only [applyOp]
            rw [tokenSum_recordAPICall, if_pos rfl]
            simp [hv.2]
        | none => rw [hf] at h'; simp at h'
      · have hv := hA id' row h'
        have hne : ¬ id = id' := fun hh => hid hh.symm
        constructor
        · show _ = callCount (applyOp st (.recordAPICall id agent p c now)).db id'
          simp only [applyOp]
          rw [callCount_recordAPICall, if_neg hne]
          simp [hv.1]
        · show _ = tokenSum (applyOp st (.recordAPICall id agent p c now)).db id'
          simp only [applyOp]
          rw [tokenSum_recordAPICall, if_neg hne]
          simp [hv.2]
    · intro r hr
      simp only [applyOp, recordAPICall, List.mem_append] at hr
      simp only [applyOp, recordAPICall]
      rw [findTask_updateAssoc]
      cases hr with
      | inl hold =>
        have hs := hR r hold
        split_ifs with hid
        · cases hf : findTask st.db.tasks r.task_id with
          | some v => simp
          | none => rw [hf] at hs; simp at hs
        · exact hs
      | inr hnew =>
        simp only [List.mem_singleton] at hnew
        subst hnew
        simp only [if_pos rfl]
        cases hf : findTask st.db.tasks id with
        | some v => simp
        | none => rw [hf] at hw'; simp at hw'


theorem applyOp_counters_mono (st : StoreState) (op : StoreOp) (id : String)
    (row : TaskRow) (h : findTask st.db.tasks id = some row) :
    ∃ row', findTask (applyOp st op).db.tasks id = some row' ∧
      row.api_call_count ≤ row'.api_call_count ∧
      row.total_tokens ≤ row'.total_tokens := by
  cases op with
  | storePlan tid => exact ⟨row, h, le_refl _, le_refl _⟩
  | recordStep tid => exact ⟨row, h, le_refl _, le_refl _⟩
  | createTask tid now mkdirFails =>
    simp only [applyOp, createTask]
    split_ifs with hdup hdir hfail
    · exact ⟨row, h, le_refl _, le_refl _⟩
    all_goals
      refine ⟨row, ?_, le_refl _, le_refl _⟩
      rw [findTask_append, h]
  | updateTaskState tid state msg now =>
    simp only [applyOp]
    rw [findTask_updateAssoc]
    split_ifs with hid
    · exact ⟨updateTaskState row state msg now, by rw [h]; rfl,
        le_refl _, le_refl _⟩
    · exact ⟨row, h, le_refl _, le_refl _⟩
  | recordAPICall tid agent p c now =>
    simp only [applyOp, recordAPICall]
    rw [findTask_updateAssoc]
    split_ifs with hid
    · refine ⟨_, by rw [h]; rfl, ?_, ?_⟩ <;> simp
    · exact ⟨row, h, le_refl _, le_refl _⟩

theorem runOps_counters_mono (ops : List StoreOp) :
    ∀ (st : StoreState) (id : String) (row : TaskRow),
      findTask st.db.tasks id = some row →
      ∃ row', findTask (runOps st ops).db.tasks id = some row' ∧
        row.api_call_count ≤ row'.api_call_count ∧
        row.total_tokens ≤ row'.total_tokens := by
  induction ops with
  | nil => intro st id row h; exact ⟨row, h, le_refl _, le_refl _⟩
  | cons op rest ih =>
    intro st id row h
    obtain ⟨row1, h1, hle1, hle2⟩ := applyOp_counters_mono st op id row h
    obtain ⟨row2, h2, hle3, hle4⟩ := ih _ _ _ h1
    exact ⟨row2, h2, le_trans hle1 hle3, le_trans hle2 hle4⟩

theorem runOps_consistent (ops : List StoreOp) :
    ∀ st, dbConsistent st.db → opsWellFormed st ops →
      dbConsistent (runOps st ops).db := by
  induction ops with
  | nil => intro st h _; exact h
  | cons op rest ih =>
    intro st h hw
    exact ih _ (dbConsistent_applyOp st op h hw.1) hw.2

theorem runOps_append (l1 l2 : List StoreOp) :
    ∀ st, runOps st (l1 ++ l2) = runOps (runOps st l1) l2 := by
  induction l1 with
  | nil => intro st; rfl
  | cons op rest ih =>
    intro st
    simp only [List.cons_append, runOps]
    exact ih _

/-- Claim C5: from the empty store, along any well-formed operation
sequence, every task's api_call_count equals the number of its
APICallRecords and its total_tokens the sum of prompt plus completion
tokens over them, and both counters are non-decreasing along the run. -/
theorem task_counters_accurate :
    ∀ (ops extra : List StoreOp),
      opsWellFormed emptyStore (ops ++ extra) →
      countersAccurate (runOps emptyStore (ops ++ extra)).db ∧
      (∀ id row row',
        findTask (runOps emptyStore ops).db.tasks id = some row →
        findTask (runOps emptyStore (ops ++ extra)).db.tasks id = some row' →
        row.api_call_count ≤ row'.api_call_count ∧
        row.total_tokens ≤ row'.total_tokens) := by
  intro ops extra hwf
  have hempty : dbConsistent emptyStore.db := by
    constructor
    · intro id row h
      simp [findTask, emptyStore] at h
    · intro r hr
      simp [emptyStore] at hr
  constructor
  · exact (runOps_consistent _ emptyStore hempty hwf).1
  · intro id row row' h1 h2
    rw [runOps_append] at h2
    obtain ⟨row2, hr2, hle1, hle2⟩ := runOps_counters_mono extra _ id row h1
    rw [h2] at hr2
    cases hr2
    exact ⟨hle1, hle2⟩

/-- Claim C5, witness: a run that creates a task and records one API call
of 3 prompt and 4 completion tokens. -/
theorem task_counters_accurate_witness :
    countersAccurate
      (runOps emptyStore
        ([.createTask "t" 0 false] ++ [.recordAPICall "t" "coder" 3 4 1])).db ∧
    (∀ id row row',
      findTask (runOps emptyStore [.createTask "t" 0 false]).db.tasks id
        = some row →
      findTask (runOps emptyStore
        ([.createTask "t" 0 false] ++ [.recordAPICall "t" "coder" 3 4 1])).db.tasks id
        = some row' →
      row.api_call_count ≤ row'.api_call_count ∧
      row.total_tokens ≤ row'.total_tokens) :=
  task_counters_accurate [.createTask "t" 0 false]
    [.recordAPICall "t" "coder" 3 4 1] ⟨trivial, by decide, trivial⟩

end AndroidSwarm
